import Mathlib

/-!
# httpclient: retrying HTTP client behind a circuit breaker

A shallow embedding of `cb.go` and `client.go`.

* Go `int` and `time.Duration` values are `Int` (a duration counts nanoseconds).
* The mutable world a call of `GenericClient.Do` runs in (the clock, the status
  registry, the local variables `response` and `retries`) is an explicit `State`;
  the circuit breaker, a pointer in Go, is threaded next to it.
* Every effect of a call is appended to `State.trace`, so that the number and the
  order of sends, sleeps and status writes can be stated.
* The `for` loop of `Do` is run on fuel; `Do_never_outOfFuel` shows that the fuel
  handed to it is never used up.
-/

namespace httpclient

/-- Go `time.Duration`: a signed number of nanoseconds. -/
abbrev Duration := Int

/-- Go `time.Millisecond`. -/
def Millisecond : Duration := 1000000

/-- Go `time.Second`. -/
def Second : Duration := 1000000000

/-! ## The values that cross the transport boundary -/

namespace http

/-- The part of `http.Request` a retry predicate may look at. -/
structure Request where
  Method : String
  URL : String
deriving DecidableEq, Repr

/-- The part of `http.Response` the callers look at. -/
structure Response where
  StatusCode : Int
deriving DecidableEq, Repr

/-- What one call of `(*http.Client).Do` hands back: the response pointer (`none` is
Go `nil`), the error (`none` is `nil`; a non-nil one is always a `*url.Error`, given
here by its text) and the time the call took, in nanoseconds. -/
structure SendResult where
  resp : Option Response
  err : Option String
  elapsed : Nat
deriving DecidableEq, Repr

/-- An `*http.Client` together with the network behind it: the outcome of the `k`-th
send (counted from 0 within one call of `GenericClient.Do`) of a request. -/
structure Client where
  Do : Nat → Request → SendResult

end http

/-- The Go `error` values that occur in `client.go`: the sentinel
`breaker.ErrBreakerOpen` and the errors of the transport. -/
inductive Err where
  | ErrBreakerOpen
  | transport (text : String)
deriving DecidableEq, Repr

/-- Everything a call of `GenericClient.Do` does, in the order it does it. -/
inductive Event where
  /-- The transport was invoked: `g.client.Do(req)`. -/
  | send
  /-- The breaker rejected the call: `b.Run` returned `ErrBreakerOpen` without invoking
  the unit of work. -/
  | reject
  /-- The predicate was consulted: `g.retryPolicy.Retry(req)` was evaluated. -/
  | consult
  /-- The index expression `backoffs[i]` was evaluated. -/
  | index (i : Nat)
  /-- The call slept: `time.Sleep(d)`. -/
  | sleep (d : Duration)
  /-- The registry was written: `g.status.Set(name, up)`. -/
  | setStatus (name : String) (up : Bool)
deriving DecidableEq, Repr

/-! ## Status registry and retry policy -/

/-- Modelled from the spec: the status registry (`Status`, `NewStatus`, `Get`, `Set`
are declared outside `cb.go` and `client.go`): a mapping from service name to a
boolean health flag, one flag per name, last writer wins. -/
structure Status where
  flags : String → Bool

/-- Modelled from the spec: `Get(name) → bool` reads the flag of `name`. -/
def Status.Get (st : Status) (name : String) : Bool :=
  st.flags name

/-- Modelled from the spec: `Set(name, bool)` overwrites the flag of `name` and no
other. -/
def Status.Set (st : Status) (name : String) (up : Bool) : Status :=
  ⟨fun n => if n = name then up else st.flags n⟩

/-- Modelled from the spec: the `RetryPolicy` interface (declared outside `cb.go` and
`client.go`): an ordered finite sequence of backoff durations, fixed at construction,
and a predicate on the request. -/
structure RetryPolicy where
  backoffs : List Duration
  retry : http.Request → Bool

/-- Modelled from the spec: `Backoffs()` is pure and yields the sequence fixed at
construction. -/
def RetryPolicy.Backoffs (p : RetryPolicy) : List Duration :=
  p.backoffs

/-- Modelled from the spec: `Retry(req)`, the predicate of the policy. -/
def RetryPolicy.Retry (p : RetryPolicy) (req : http.Request) : Bool :=
  p.retry req

/-- Modelled from the spec: No-Retry has an empty backoff sequence and a predicate
that is always false. -/
def NewNoRetryPolicy : RetryPolicy :=
  ⟨[], fun _ => false⟩

/-- Modelled from the spec: Single-Retry(delay) has the one-element sequence
`[delay]`. The spec does not fix its predicate, which is a parameter here. -/
def NewSingleRetryPolicy (delay : Duration) (retry : http.Request → Bool) : RetryPolicy :=
  ⟨[delay], retry⟩

/-- Modelled from the spec: Constant-Retry(delay, count) has `count` elements, all
equal to `delay`. The spec does not fix its predicate, which is a parameter here. -/
def NewConstantRetryPolicy (delay : Duration) (count : Nat)
    (retry : http.Request → Bool) : RetryPolicy :=
  ⟨List.replicate count delay, retry⟩

/-! ## The breaker state machine -/

namespace breaker

/-- The three states of the breaker. -/
inductive BreakerState where
  | Closed
  | Open
  | HalfOpen
deriving DecidableEq, Repr

/-- Modelled from the spec: the externally defined breaker state machine
(`breaker.Breaker` of the imported package `go-resiliency`, whose code is not among
the sources): the three thresholds it was built with, its state, its two counters,
the clock reading of the last failure it counted without opening and the clock
reading at which it last opened. -/
structure Breaker where
  errorThreshold : Int
  successThreshold : Int
  timeout : Duration
  state : BreakerState
  errors : Int
  successes : Int
  lastError : Int
  openedAt : Int
deriving DecidableEq, Repr

/-- Modelled from the spec: `breaker.New` builds a machine that starts Closed with
nothing counted. -/
def New (errorThreshold successThreshold : Int) (timeout : Duration) : Breaker :=
  ⟨errorThreshold, successThreshold, timeout, BreakerState.Closed, 0, 0, 0, 0⟩

/-- Modelled from the spec: every change of state clears both counters. -/
def Breaker.changeState (b : Breaker) (newState : BreakerState) : Breaker :=
  { b with state := newState, errors := 0, successes := 0 }

/-- Modelled from the spec: the machine as it stands at clock reading `now`: a
breaker stays Open until the configured timeout has elapsed and is Half-Open from
then on. -/
def Breaker.observe (b : Breaker) (now : Int) : Breaker :=
  if b.state = BreakerState.Open ∧ b.openedAt + b.timeout ≤ now then
    b.changeState BreakerState.HalfOpen
  else b

/-- Modelled from the spec: a unit of work that succeeded. In Half-Open, successes
are counted and `successThreshold` of them close the breaker; in Closed the call
passes through and nothing is counted. -/
def Breaker.success (b : Breaker) : Breaker :=
  match b.state with
  | BreakerState.HalfOpen =>
    if b.successes + 1 = b.successThreshold then b.changeState BreakerState.Closed
    else { b with successes := b.successes + 1 }
  | _ => b

/-- Modelled from the spec: a unit of work that failed at clock reading `now`. The
failures counted against the error threshold are windowed: when failures have been
counted and the last of them is older than the timeout, the count starts afresh. In
Closed, the failure is then counted and `errorThreshold` of them open the breaker;
in Half-Open any failure reopens it. -/
def Breaker.failure (b : Breaker) (now : Int) : Breaker :=
  let b :=
    if 0 < b.errors ∧ b.lastError + b.timeout < now then { b with errors := 0 } else b
  match b.state with
  | BreakerState.Closed =>
    if b.errors + 1 = b.errorThreshold then
      { b.changeState BreakerState.Open with openedAt := now }
    else { b with errors := b.errors + 1, lastError := now }
  | BreakerState.HalfOpen => { b.changeState BreakerState.Open with openedAt := now }
  | BreakerState.Open => b

end breaker

/-! ## cb.go -/

/-- The struct `BreakerConfig` of `cb.go`. -/
structure BreakerConfig where
  ErrorThreshold : Int
  SuccessThreshold : Int
  Timeout : Duration
deriving DecidableEq, Repr

/-- The variable `DefaultBreakerConfig` of `cb.go`. -/
def DefaultBreakerConfig : BreakerConfig :=
  { ErrorThreshold := 3, SuccessThreshold := 1, Timeout := 10 * Second }

/-- The struct `Breaker` of `cb.go`, a wrapper of the state machine. -/
structure Breaker where
  CB : breaker.Breaker
deriving DecidableEq, Repr

/-- The three assignments at the head of `NewBreaker`: each zero field of the config
is overwritten with the field of `DefaultBreakerConfig`. -/
def NewBreaker.config (config : BreakerConfig) : BreakerConfig :=
  let config :=
    if config.ErrorThreshold = 0 then
      { config with ErrorThreshold := DefaultBreakerConfig.ErrorThreshold }
    else config
  let config :=
    if config.SuccessThreshold = 0 then
      { config with SuccessThreshold := DefaultBreakerConfig.SuccessThreshold }
    else config
  let config :=
    if config.Timeout = 0 then
      { config with Timeout := DefaultBreakerConfig.Timeout }
    else config
  config

/-- The function `NewBreaker` of `cb.go`. -/
def NewBreaker (config : BreakerConfig) : Breaker :=
  let config := NewBreaker.config config
  { CB := breaker.New config.ErrorThreshold config.SuccessThreshold config.Timeout }

/-! ## client.go -/

/-- The struct `GenericClient` of `client.go`. The fields `circuitBreaker` and
`status` hold the breaker and the registry as they stand when a call starts. -/
structure GenericClient where
  name : String
  client : http.Client
  retryPolicy : RetryPolicy
  circuitBreaker : Breaker
  status : Status

/-- The world a call of `Do` runs in, apart from the breaker: the local variables
`response` and `retries` (which only ever counts up from 0), the status registry,
the clock, the number of sends made and the trace of effects. -/
structure State where
  response : Option http.Response
  retries : Nat
  status : Status
  now : Int
  sent : Nat
  trace : List Event

/-- How a run of the loop of `Do` ends: with the `return` of a response pointer and
an error (`none` is `nil`), with the run-time panic of an index out of range, or
with the fuel of the model used up. -/
inductive Exit where
  | returned (response : Option http.Response) (err : Option Err)
  | panicked
  | outOfFuel
deriving DecidableEq, Repr

/-- The end of a call of `Do`: how it ended, the breaker and the world it left. -/
structure Outcome where
  exit : Exit
  cb : breaker.Breaker
  final : State

/-- Go `time.Sleep(d)`: the clock moves on by `d`; a zero or negative `d` returns at
once. -/
def Sleep (d : Duration) (s : State) : State :=
  { s with now := s.now + max d 0, trace := s.trace ++ [Event.sleep d] }

/-- The method `SetStatus`: `g.status.Set(g.name, status)`. -/
def GenericClient.SetStatus (g : GenericClient) (status : Bool) (s : State) : State :=
  { s with status := s.status.Set g.name status,
           trace := s.trace ++ [Event.setStatus g.name status] }

/-- The method `GetStatus`: `g.status.Get(g.name)`, read in the world `s`. -/
def GenericClient.GetStatus (g : GenericClient) (s : State) : Bool :=
  s.status.Get g.name

/-- The method `SetRetryPolicy`. -/
def GenericClient.SetRetryPolicy (g : GenericClient) (policy : RetryPolicy) : GenericClient :=
  { g with retryPolicy := policy }

/-- The method `SetCircuitBreaker`. -/
def GenericClient.SetCircuitBreaker (g : GenericClient) (b : Breaker) : GenericClient :=
  { g with circuitBreaker := b }

/-- The world right after `resp, err := g.client.Do(req)` and `response = resp`: the
response pointer is stored, the send is counted and traced, and the clock has moved
on by the time the send took. -/
def GenericClient.afterSend (g : GenericClient) (req : http.Request) (s : State) : State :=
  let r := g.client.Do s.sent req
  { s with response := r.resp, sent := s.sent + 1, now := s.now + r.elapsed,
           trace := s.trace ++ [Event.send] }

/-- The set-up steps of the tests: `SetRetryPolicy(policy)` followed by
`SetCircuitBreaker(NewBreaker(config))`. -/
def GenericClient.equip (g : GenericClient) (policy : RetryPolicy) (config : BreakerConfig) :
    GenericClient :=
  (g.SetRetryPolicy policy).SetCircuitBreaker (NewBreaker config)

/-- The closure handed to `b.Run` in `Do`: send the request, store the response
pointer in `response`, return the error of the send. -/
def GenericClient.work (g : GenericClient) (req : http.Request) (s : State) :
    Option Err × State :=
  let r := g.client.Do s.sent req
  let s1 := g.afterSend req s
  match r.err with
  | some e => (some (Err.transport e), s1)
  | none => (none, s1)

/-- Modelled from the spec: `Run` of the breaker. An Open breaker rejects the call:
it returns `ErrBreakerOpen` without invoking the unit of work. Otherwise the work is
run, its result is counted by the machine and passed along. -/
def breaker.Breaker.Run (b : breaker.Breaker) (work : State → Option Err × State)
    (s : State) : Option Err × breaker.Breaker × State :=
  let b := b.observe s.now
  match b.state with
  | breaker.BreakerState.Open =>
    (some Err.ErrBreakerOpen, b, { s with trace := s.trace ++ [Event.reject] })
  | _ =>
    match work s with
    | (none, s1) => (none, b.success, s1)
    | (some e, s1) => (some e, b.failure s1.now, s1)

/-- The `else` branch of the `default` case of `Do`: give up. -/
def GenericClient.giveUp (g : GenericClient) (b : breaker.Breaker) (s : State) : Outcome :=
  let s := g.SetStatus false s
  ⟨Exit.returned s.response (some Err.ErrBreakerOpen), b, s⟩

/-- The `for` loop of `Do`, run for at most `fuel` iterations. -/
def GenericClient.doLoop (g : GenericClient) (req : http.Request) (backoffs : List Duration) :
    Nat → breaker.Breaker → State → Outcome
  | 0, b, s => ⟨Exit.outOfFuel, b, s⟩
  | fuel + 1, b, s =>
    match b.Run (g.work req) s with
    | (none, b, s) =>
      -- Success
      let s := g.SetStatus true s
      ⟨Exit.returned s.response none, b, s⟩
    | (some Err.ErrBreakerOpen, b, s) =>
      -- Circuit-Breaker open
      let s := g.SetStatus false s
      ⟨Exit.returned s.response (some Err.ErrBreakerOpen), b, s⟩
    | (some (Err.transport _), b, s) =>
      -- Otherwise, retry
      if s.retries ≤ backoffs.length then
        let s := { s with trace := s.trace ++ [Event.consult] }
        if g.retryPolicy.Retry req then
          let s := { s with trace := s.trace ++ [Event.index s.retries] }
          match backoffs[s.retries]? with
          | none => ⟨Exit.panicked, b, s⟩
          | some d =>
            let s := Sleep d s
            let s := { s with retries := s.retries + 1 }
            g.doLoop req backoffs fuel b s
        else g.giveUp b s
      else g.giveUp b s

/-- The world at the start of a call of `Do` at clock reading `now`:
`response := &http.Response{}`, `retries := 0`, nothing done yet. -/
def GenericClient.start (g : GenericClient) (now : Int) : State :=
  { response := some { StatusCode := 0 }, retries := 0, status := g.status, now := now,
    sent := 0, trace := [] }

/-- The method `Do` of `client.go`, called at clock reading `now`. -/
def GenericClient.Do (g : GenericClient) (req : http.Request) (now : Int) : Outcome :=
  let b := g.circuitBreaker.CB
  let backoffs := g.retryPolicy.Backoffs
  g.doLoop req backoffs (backoffs.length + 2) b (g.start now)

/-- The sleeps of a trace, in order. -/
def sleeps : List Event → List Duration
  | [] => []
  | Event.sleep d :: es => d :: sleeps es
  | _ :: es => sleeps es

/-- The number of sends of a trace. -/
def sends (t : List Event) : Nat :=
  t.count Event.send

/-- The status writes of a trace, in order. -/
def statusWrites : List Event → List (String × Bool)
  | [] => []
  | Event.setStatus n v :: es => (n, v) :: statusWrites es
  | _ :: es => statusWrites es

/-- The rounds of a run that keeps failing and retrying, from retry count `r` on: a
send, the predicate, the index expression and the sleep of each backoff. -/
def rounds : Nat → List Duration → List Event
  | _, [] => []
  | r, d :: ds =>
    [Event.send, Event.consult, Event.index r, Event.sleep d] ++ rounds (r + 1) ds

/-! ### Concrete set-ups -/

/-- A transport whose every send fails after `ns` nanoseconds. -/
def failingClient (ns : Nat) : http.Client :=
  ⟨fun _ _ => { resp := none, err := some "connection refused", elapsed := ns }⟩

/-- A transport whose every send is answered with status 200. -/
def workingClient : http.Client :=
  ⟨fun _ _ => { resp := some { StatusCode := 200 }, err := none, elapsed := 1000 }⟩

/-- A registry in which every service is up. -/
def allUp : Status :=
  ⟨fun _ => true⟩

/-- A GET request. -/
def getRequest : http.Request :=
  { Method := "GET", URL := "localhost:8080" }

/-- A breaker that opened at clock reading 0 and stays Open for ten seconds. -/
def trippedBreaker : Breaker :=
  ⟨{ breaker.New 3 1 (10 * Second) with state := breaker.BreakerState.Open, openedAt := 0 }⟩

/-- A client for `fakeService` with the given transport, policy and breaker config. -/
def mkClient (c : http.Client) (p : RetryPolicy) (cfg : BreakerConfig) : GenericClient :=
  { name := "fakeService", client := c, retryPolicy := p, circuitBreaker := NewBreaker cfg,
    status := allUp }

/-- A client with two backoffs of 50ms and a fresh breaker of threshold 2 and timeout
100ms, in front of a transport whose every send fails after 80ms. -/
def slowFailingClient : GenericClient :=
  mkClient (failingClient 80000000)
    (NewConstantRetryPolicy (50 * Millisecond) 2 (fun _ => true)) ⟨2, 1, 100 * Millisecond⟩

/-- A client whose breaker is Open, in front of a service that would answer. -/
def trippedClient : GenericClient :=
  { name := "fakeService", client := workingClient,
    retryPolicy := NewConstantRetryPolicy (100 * Millisecond) 3 (fun _ => true),
    circuitBreaker := trippedBreaker, status := allUp }

/-! ## One iteration of the loop -/

theorem exists_of_ne_none {α : Type} (o : Option α) (h : o ≠ none) : ∃ e, o = some e := by
  cases o with
  | none => exact absurd rfl h
  | some e => exact ⟨e, rfl⟩

theorem work_eq (g : GenericClient) (req : http.Request) (s : State) :
    g.work req s = ((g.client.Do s.sent req).err.map Err.transport, g.afterSend req s) := by
  unfold GenericClient.work GenericClient.afterSend
  cases h : (g.client.Do s.sent req).err <;> simp [h]

theorem Run_open (g : GenericClient) (req : http.Request) (b : breaker.Breaker) (s : State)
    (h : (b.observe s.now).state = breaker.BreakerState.Open) :
    b.Run (g.work req) s
      = (some Err.ErrBreakerOpen, b.observe s.now,
          { s with trace := s.trace ++ [Event.reject] }) := by
  simp [breaker.Breaker.Run, h]

theorem Run_passed (g : GenericClient) (req : http.Request) (b : breaker.Breaker) (s : State)
    (h : (b.observe s.now).state ≠ breaker.BreakerState.Open) :
    b.Run (g.work req) s
      = match (g.client.Do s.sent req).err with
        | none => (none, (b.observe s.now).success, g.afterSend req s)
        | some e => (some (Err.transport e),
            (b.observe s.now).failure (g.afterSend req s).now, g.afterSend req s) := by
  unfold breaker.Breaker.Run
  rw [work_eq]
  cases hs : (b.observe s.now).state
  · cases he : (g.client.Do s.sent req).err <;> simp [hs, he]
  · exact absurd hs h
  · cases he : (g.client.Do s.sent req).err <;> simp [hs, he]

/-- An iteration in which the breaker rejects the call. -/
theorem doLoop_reject (g : GenericClient) (req : http.Request) (bs : List Duration)
    (fuel : Nat) (b : breaker.Breaker) (s : State)
    (h : (b.observe s.now).state = breaker.BreakerState.Open) :
    g.doLoop req bs (fuel + 1) b s
      = ⟨Exit.returned s.response (some Err.ErrBreakerOpen), b.observe s.now,
          g.SetStatus false { s with trace := s.trace ++ [Event.reject] }⟩ := by
  simp [GenericClient.doLoop, Run_open g req b s h, GenericClient.SetStatus]

/-- An iteration in which the call is admitted and the send succeeds. -/
theorem doLoop_success (g : GenericClient) (req : http.Request) (bs : List Duration)
    (fuel : Nat) (b : breaker.Breaker) (s : State)
    (h : (b.observe s.now).state ≠ breaker.BreakerState.Open)
    (he : (g.client.Do s.sent req).err = none) :
    g.doLoop req bs (fuel + 1) b s
      = ⟨Exit.returned (g.client.Do s.sent req).resp none, (b.observe s.now).success,
          g.SetStatus true (g.afterSend req s)⟩ := by
  simp [GenericClient.doLoop, Run_passed g req b s h, he, GenericClient.SetStatus,
    GenericClient.afterSend]

/-- An iteration in which the call is admitted and the send fails. -/
theorem doLoop_failure (g : GenericClient) (req : http.Request) (bs : List Duration)
    (fuel : Nat) (b : breaker.Breaker) (s : State) (e : String)
    (h : (b.observe s.now).state ≠ breaker.BreakerState.Open)
    (he : (g.client.Do s.sent req).err = some e) :
    g.doLoop req bs (fuel + 1) b s
      = if s.retries ≤ bs.length then
          if g.retryPolicy.Retry req then
            match bs[s.retries]? with
            | none =>
              ⟨Exit.panicked, (b.observe s.now).failure (g.afterSend req s).now,
                { g.afterSend req s with
                  trace := s.trace ++ [Event.send, Event.consult, Event.index s.retries] }⟩
            | some d =>
              g.doLoop req bs fuel ((b.observe s.now).failure (g.afterSend req s).now)
                { g.afterSend req s with
                  retries := s.retries + 1
                  now := (g.afterSend req s).now + max d 0
                  trace := s.trace
                    ++ [Event.send, Event.consult, Event.index s.retries, Event.sleep d] }
          else
            g.giveUp ((b.observe s.now).failure (g.afterSend req s).now)
              { g.afterSend req s with trace := s.trace ++ [Event.send, Event.consult] }
        else
          g.giveUp ((b.observe s.now).failure (g.afterSend req s).now) (g.afterSend req s) := by
  simp only [GenericClient.doLoop, Run_passed g req b s h, he]
  have hr : (g.afterSend req s).retries = s.retries := rfl
  have ht : (g.afterSend req s).trace = s.trace ++ [Event.send] := rfl
  simp only [hr, ht, Sleep, List.append_assoc, List.singleton_append]
  split_ifs <;> rfl

theorem GetStatus_SetStatus (g : GenericClient) (up : Bool) (s : State) :
    g.GetStatus (g.SetStatus up s) = up := by
  simp [GenericClient.GetStatus, GenericClient.SetStatus, Status.Get, Status.Set]

/-- The method `Run` returns the sentinel exactly when the breaker, as it stands, is Open. -/
theorem Run_rejects_iff (g : GenericClient) (req : http.Request) (b : breaker.Breaker)
    (s : State) :
    (b.Run (g.work req) s).1 = some Err.ErrBreakerOpen
      ↔ (b.observe s.now).state = breaker.BreakerState.Open := by
  constructor
  · intro h
    by_contra hn
    rw [Run_passed g req b s hn] at h
    cases he : (g.client.Do s.sent req).err <;> simp [he] at h
  · intro h
    rw [Run_open g req b s h]

/-! ## NewBreaker -/

theorem NewBreaker_eq (config : BreakerConfig) :
    NewBreaker config
      = ⟨breaker.New (if config.ErrorThreshold = 0 then 3 else config.ErrorThreshold)
          (if config.SuccessThreshold = 0 then 1 else config.SuccessThreshold)
          (if config.Timeout = 0 then 10 * Second else config.Timeout)⟩ := by
  simp only [NewBreaker, NewBreaker.config, DefaultBreakerConfig]
  split_ifs <;> rfl

/-- C8: for every config, `NewBreaker` builds the underlying breaker from, for each of
the three fields independently, the supplied value when it is non-zero and the
default (3, 1, 10s) when it is zero; a config with no zero field is passed through
unchanged and the zero config yields the values of `DefaultBreakerConfig`. -/
theorem C8_NewBreaker_normalizes (config : BreakerConfig) :
    NewBreaker config
        = ⟨breaker.New (if config.ErrorThreshold = 0 then 3 else config.ErrorThreshold)
            (if config.SuccessThreshold = 0 then 1 else config.SuccessThreshold)
            (if config.Timeout = 0 then 10 * Second else config.Timeout)⟩
      ∧ ((config.ErrorThreshold ≠ 0 ∧ config.SuccessThreshold ≠ 0 ∧ config.Timeout ≠ 0) →
          NewBreaker config
            = ⟨breaker.New config.ErrorThreshold config.SuccessThreshold config.Timeout⟩)
      ∧ NewBreaker ⟨0, 0, 0⟩
          = ⟨breaker.New DefaultBreakerConfig.ErrorThreshold
              DefaultBreakerConfig.SuccessThreshold DefaultBreakerConfig.Timeout⟩
      ∧ NewBreaker.config ⟨0, 0, 0⟩ = DefaultBreakerConfig := by
  refine ⟨NewBreaker_eq config, ?_, by decide, by decide⟩
  rintro ⟨h1, h2, h3⟩
  simp [NewBreaker_eq, h1, h2, h3]

/-- C8 at a config with no zero field: it is passed through unchanged. -/
theorem C8_NewBreaker_normalizes_witness :
    NewBreaker ⟨5, 2, 7 * Second⟩ = ⟨breaker.New 5 2 (7 * Second)⟩ :=
  (C8_NewBreaker_normalizes ⟨5, 2, 7 * Second⟩).2.1 ⟨by decide, by decide, by decide⟩

/-- The claim C9 as written fails at the config with `ErrorThreshold` -1,
`SuccessThreshold` 1 and `Timeout` 10s: -1 is not zero, so `NewBreaker` hands it to
the underlying breaker as it is, and the three values are not all positive. -/
theorem C9_negative_threshold_passed_on :
    (NewBreaker ⟨-1, 1, 10 * Second⟩).CB.errorThreshold = -1
      ∧ ¬ (0 < (NewBreaker ⟨-1, 1, 10 * Second⟩).CB.errorThreshold
        ∧ 0 < (NewBreaker ⟨-1, 1, 10 * Second⟩).CB.successThreshold
        ∧ 0 < (NewBreaker ⟨-1, 1, 10 * Second⟩).CB.timeout) := by
  decide

/-- C9 (amended): for every config none of whose fields is negative, the three values
`NewBreaker` hands to the underlying breaker are all strictly positive. -/
theorem C9_NewBreaker_positive (config : BreakerConfig)
    (he : 0 ≤ config.ErrorThreshold) (hs : 0 ≤ config.SuccessThreshold)
    (ht : 0 ≤ config.Timeout) :
    0 < (NewBreaker config).CB.errorThreshold
      ∧ 0 < (NewBreaker config).CB.successThreshold
      ∧ 0 < (NewBreaker config).CB.timeout := by
  simp only [NewBreaker_eq, breaker.New, Second]
  refine ⟨?_, ?_, ?_⟩
  · split_ifs <;> omega
  · split_ifs <;> omega
  · split_ifs with h
    · decide
    · exact lt_of_le_of_ne ht (Ne.symm h)

/-- C9 (amended) at the config with thresholds 0 and 2 and timeout 0. -/
theorem C9_NewBreaker_positive_witness :
    0 < (NewBreaker ⟨0, 2, 0⟩).CB.errorThreshold
      ∧ 0 < (NewBreaker ⟨0, 2, 0⟩).CB.successThreshold
      ∧ 0 < (NewBreaker ⟨0, 2, 0⟩).CB.timeout :=
  C9_NewBreaker_positive ⟨0, 2, 0⟩ (by decide) (by decide) (by decide)

/-! ## The three ways out of `Do` -/

/-- C3: whenever the breaker rejects the guarded call (`Run` returns `ErrBreakerOpen`),
at any iteration of the loop of `Do` and for every retry policy and backoff sequence,
`Do` returns at once with the breaker-open error and the response captured so far:
the iteration adds to the trace the rejection and the status write `false` and
nothing else (no send, no sleep, no consultation of the predicate, no further
attempt), leaves the clock, the send count and the retry count as they were, and the
status reads down. -/
theorem C3_rejected_call_returns_at_once (g : GenericClient) (req : http.Request)
    (bs : List Duration) (fuel : Nat) (b : breaker.Breaker) (s : State)
    (h : (b.Run (g.work req) s).1 = some Err.ErrBreakerOpen) :
    (g.doLoop req bs (fuel + 1) b s).exit
        = Exit.returned s.response (some Err.ErrBreakerOpen)
      ∧ (g.doLoop req bs (fuel + 1) b s).final.trace
        = s.trace ++ [Event.reject, Event.setStatus g.name false]
      ∧ (g.doLoop req bs (fuel + 1) b s).final.sent = s.sent
      ∧ (g.doLoop req bs (fuel + 1) b s).final.now = s.now
      ∧ (g.doLoop req bs (fuel + 1) b s).final.retries = s.retries
      ∧ g.GetStatus (g.doLoop req bs (fuel + 1) b s).final = false := by
  rw [doLoop_reject g req bs fuel b s ((Run_rejects_iff g req b s).1 h)]
  refine ⟨rfl, ?_, rfl, rfl, rfl, GetStatus_SetStatus g false _⟩
  simp [GenericClient.SetStatus]

/-- C3 at a client whose breaker opened five nanoseconds before the call. -/
theorem C3_rejected_call_returns_at_once_witness :
    (trippedClient.Do getRequest 5).exit
        = Exit.returned (some { StatusCode := 0 }) (some Err.ErrBreakerOpen)
      ∧ (trippedClient.Do getRequest 5).final.trace
        = [Event.reject, Event.setStatus "fakeService" false]
      ∧ (trippedClient.Do getRequest 5).final.sent = 0
      ∧ (trippedClient.Do getRequest 5).final.now = 5
      ∧ (trippedClient.Do getRequest 5).final.retries = 0
      ∧ trippedClient.GetStatus (trippedClient.Do getRequest 5).final = false :=
  C3_rejected_call_returns_at_once trippedClient getRequest
    trippedClient.retryPolicy.Backoffs (trippedClient.retryPolicy.Backoffs.length + 1)
    trippedClient.circuitBreaker.CB (trippedClient.start 5) (by decide)

/-- C4: for every request, if the breaker admits the call (it is Closed or Half-Open
when `Do` starts) and the first send of the transport returns no error, then `Do`
returns the response of that send with a nil error, having invoked the transport
once, slept not at all and written the status up, and nothing else. -/
theorem C4_first_send_succeeds (g : GenericClient) (req : http.Request) (now : Int)
    (h : (g.circuitBreaker.CB.observe now).state ≠ breaker.BreakerState.Open)
    (he : (g.client.Do 0 req).err = none) :
    (g.Do req now).exit = Exit.returned (g.client.Do 0 req).resp none
      ∧ (g.Do req now).final.trace = [Event.send, Event.setStatus g.name true]
      ∧ sends (g.Do req now).final.trace = 1
      ∧ (g.Do req now).final.sent = 1
      ∧ sleeps (g.Do req now).final.trace = []
      ∧ g.GetStatus (g.Do req now).final = true := by
  have hd : g.Do req now
      = ⟨Exit.returned (g.client.Do 0 req).resp none,
          (g.circuitBreaker.CB.observe now).success,
          g.SetStatus true (g.afterSend req (g.start now))⟩ :=
    doLoop_success g req _ _ _ (g.start now) h he
  rw [hd]
  exact ⟨rfl, rfl, by simp [sends, GenericClient.SetStatus, GenericClient.afterSend, GenericClient.start], rfl, rfl, GetStatus_SetStatus g true _⟩

/-- C4 at a client with the default breaker config in front of a working service. -/
theorem C4_first_send_succeeds_witness :
    ((mkClient workingClient NewNoRetryPolicy DefaultBreakerConfig).Do getRequest 0).exit
        = Exit.returned (some { StatusCode := 200 }) none
      ∧ ((mkClient workingClient NewNoRetryPolicy DefaultBreakerConfig).Do getRequest 0).final.trace
        = [Event.send, Event.setStatus "fakeService" true]
      ∧ sends
          ((mkClient workingClient NewNoRetryPolicy DefaultBreakerConfig).Do getRequest 0).final.trace
        = 1
      ∧ ((mkClient workingClient NewNoRetryPolicy DefaultBreakerConfig).Do getRequest 0).final.sent
        = 1
      ∧ sleeps
          ((mkClient workingClient NewNoRetryPolicy DefaultBreakerConfig).Do getRequest 0).final.trace
        = []
      ∧ (mkClient workingClient NewNoRetryPolicy DefaultBreakerConfig).GetStatus
          ((mkClient workingClient NewNoRetryPolicy DefaultBreakerConfig).Do getRequest 0).final
        = true :=
  C4_first_send_succeeds (mkClient workingClient NewNoRetryPolicy DefaultBreakerConfig)
    getRequest 0 (by decide) (by decide)

/-- A breaker fresh from `NewBreaker` is Closed, whatever the config and the clock. -/
theorem NewBreaker_observe_closed (config : BreakerConfig) (now : Int) :
    ((NewBreaker config).CB.observe now).state = breaker.BreakerState.Closed := by
  simp [NewBreaker_eq, breaker.New, breaker.Breaker.observe]

/-- C5: with the No-Retry policy and a breaker built by `NewBreaker` from a config
whose `ErrorThreshold` is the backoff length of the policy, 0, a call of `Do` whose
send fails makes that one send, consults the predicate, does not sleep, returns the
breaker-open error and marks the status down. -/
theorem C5_no_retry_single_failure (g : GenericClient) (req : http.Request) (now : Int)
    (successThreshold : Int) (timeout : Duration) (e : String)
    (he : (g.client.Do 0 req).err = some e) :
    ((g.equip NewNoRetryPolicy
        ⟨NewNoRetryPolicy.Backoffs.length, successThreshold, timeout⟩).Do req now).exit
        = Exit.returned (g.client.Do 0 req).resp (some Err.ErrBreakerOpen)
      ∧ ((g.equip NewNoRetryPolicy
          ⟨NewNoRetryPolicy.Backoffs.length, successThreshold, timeout⟩).Do req now).final.trace
        = [Event.send, Event.consult, Event.setStatus g.name false]
      ∧ ((g.equip NewNoRetryPolicy
          ⟨NewNoRetryPolicy.Backoffs.length, successThreshold, timeout⟩).Do req now).final.sent
        = 1
      ∧ sleeps ((g.equip NewNoRetryPolicy
          ⟨NewNoRetryPolicy.Backoffs.length, successThreshold, timeout⟩).Do req now).final.trace
        = []
      ∧ g.GetStatus ((g.equip NewNoRetryPolicy
          ⟨NewNoRetryPolicy.Backoffs.length, successThreshold, timeout⟩).Do req now).final
        = false := by
  have hc := NewBreaker_observe_closed
    ⟨NewNoRetryPolicy.Backoffs.length, successThreshold, timeout⟩ now
  unfold GenericClient.equip
  generalize NewBreaker ⟨NewNoRetryPolicy.Backoffs.length, successThreshold, timeout⟩ = nb
    at hc ⊢
  have hd := doLoop_failure ((g.SetRetryPolicy NewNoRetryPolicy).SetCircuitBreaker nb) req
    [] 1 nb.CB (((g.SetRetryPolicy NewNoRetryPolicy).SetCircuitBreaker nb).start now) e
    (by show (nb.CB.observe now).state ≠ _; rw [hc]; decide) he
  have hD : ((g.SetRetryPolicy NewNoRetryPolicy).SetCircuitBreaker nb).Do req now
      = ((g.SetRetryPolicy NewNoRetryPolicy).SetCircuitBreaker nb).doLoop req [] 2 nb.CB
          (((g.SetRetryPolicy NewNoRetryPolicy).SetCircuitBreaker nb).start now) := rfl
  rw [hD, hd]
  refine ⟨rfl, rfl, rfl, rfl, ?_⟩
  exact GetStatus_SetStatus g false _

/-- C5 at the set-up of the No-Retry test: threshold 0, success threshold 1, 10s. -/
theorem C5_no_retry_single_failure_witness :
    (((mkClient (failingClient 5) (NewConstantRetryPolicy 7 3 (fun _ => true))
        DefaultBreakerConfig).equip NewNoRetryPolicy
          ⟨NewNoRetryPolicy.Backoffs.length, 1, 10 * Second⟩).Do getRequest 0).exit
        = Exit.returned none (some Err.ErrBreakerOpen)
      ∧ (((mkClient (failingClient 5) (NewConstantRetryPolicy 7 3 (fun _ => true))
          DefaultBreakerConfig).equip NewNoRetryPolicy
            ⟨NewNoRetryPolicy.Backoffs.length, 1, 10 * Second⟩).Do getRequest 0).final.trace
        = [Event.send, Event.consult, Event.setStatus "fakeService" false] :=
  have h := C5_no_retry_single_failure
    (mkClient (failingClient 5) (NewConstantRetryPolicy 7 3 (fun _ => true))
      DefaultBreakerConfig) getRequest 0 1 (10 * Second) "connection refused" (by decide)
  ⟨h.1, h.2.1⟩

/-! ## Every return of `Do` -/

theorem statusWrites_append (t u : List Event) :
    statusWrites (t ++ u) = statusWrites t ++ statusWrites u := by
  induction t with
  | nil => rfl
  | cons e t ih => cases e <;> simp [statusWrites, ih]

/-- What holds of every run of the loop that ends in a `return`: the error is nil or
the sentinel, the run has added to the trace some events that are not status writes
and then one status write, for the name of the client, of whether the error is nil,
and the registry has changed by that write alone. -/
theorem doLoop_returned (g : GenericClient) (req : http.Request) (bs : List Duration) :
    ∀ (fuel : Nat) (b : breaker.Breaker) (s : State) (resp : Option http.Response)
      (err : Option Err),
      (g.doLoop req bs fuel b s).exit = Exit.returned resp err →
        (err = none ∨ err = some Err.ErrBreakerOpen)
          ∧ (g.doLoop req bs fuel b s).final.status = s.status.Set g.name err.isNone
          ∧ ∃ t, (g.doLoop req bs fuel b s).final.trace
                = s.trace ++ t ++ [Event.setStatus g.name err.isNone]
              ∧ statusWrites t = [] := by
  intro fuel
  induction fuel with
  | zero =>
    intro b s resp err h
    simp [GenericClient.doLoop] at h
  | succ fuel ih =>
    intro b s resp err h
    by_cases hO : (b.observe s.now).state = breaker.BreakerState.Open
    · rw [doLoop_reject g req bs fuel b s hO] at h ⊢
      simp only [Exit.returned.injEq] at h
      obtain ⟨-, rfl⟩ := h
      exact ⟨Or.inr rfl, rfl, [Event.reject], by simp [GenericClient.SetStatus], rfl⟩
    · cases he : (g.client.Do s.sent req).err with
      | none =>
        rw [doLoop_success g req bs fuel b s hO he] at h ⊢
        simp only [Exit.returned.injEq] at h
        obtain ⟨-, rfl⟩ := h
        exact ⟨Or.inl rfl, rfl, [Event.send],
          by simp [GenericClient.SetStatus, GenericClient.afterSend], rfl⟩
      | some e =>
        rw [doLoop_failure g req bs fuel b s e hO he] at h ⊢
        split_ifs at h ⊢ with h1 h2
        · cases hg : bs[s.retries]? with
          | none => rw [hg] at h; simp at h
          | some d =>
            rw [hg] at h
            simp only at h ⊢
            obtain ⟨herr, hst, t, ht, hw⟩ := ih _ _ resp err h
            refine ⟨herr, hst, [Event.send, Event.consult, Event.index s.retries,
              Event.sleep d] ++ t, ?_, ?_⟩
            · rw [ht]; simp
            · rw [statusWrites_append, hw]; rfl
        · simp only [GenericClient.giveUp, Exit.returned.injEq] at h
          obtain ⟨-, rfl⟩ := h
          exact ⟨Or.inr rfl, rfl, [Event.send, Event.consult],
            by simp [GenericClient.giveUp, GenericClient.SetStatus], rfl⟩
        · simp only [GenericClient.giveUp, Exit.returned.injEq] at h
          obtain ⟨-, rfl⟩ := h
          exact ⟨Or.inr rfl, rfl, [Event.send],
            by simp [GenericClient.giveUp, GenericClient.SetStatus, GenericClient.afterSend],
            rfl⟩

/-- The loop of `Do` ends, by a `return` or by a panic, within the fuel it is given
whenever that fuel covers the backoffs that are left and one more iteration. -/
theorem doLoop_never_outOfFuel (g : GenericClient) (req : http.Request) (bs : List Duration) :
    ∀ (fuel : Nat) (b : breaker.Breaker) (s : State),
      0 < fuel → bs.length + 1 ≤ s.retries + fuel →
        (g.doLoop req bs fuel b s).exit ≠ Exit.outOfFuel := by
  intro fuel
  induction fuel with
  | zero => intro b s h; exact absurd h (by decide)
  | succ fuel ih =>
    intro b s _ hf
    by_cases hO : (b.observe s.now).state = breaker.BreakerState.Open
    · rw [doLoop_reject g req bs fuel b s hO]; simp
    · cases he : (g.client.Do s.sent req).err with
      | none => rw [doLoop_success g req bs fuel b s hO he]; simp
      | some e =>
        rw [doLoop_failure g req bs fuel b s e hO he]
        split_ifs with h1 h2
        · cases hg : bs[s.retries]? with
          | none => simp
          | some d =>
            have hlt : s.retries < bs.length := by
              by_contra hn
              rw [List.getElem?_eq_none (by omega)] at hg
              exact absurd hg (by simp)
            simp only
            apply ih
            · omega
            · show bs.length + 1 ≤ s.retries + 1 + fuel
              omega
        · simp [GenericClient.giveUp]
        · simp [GenericClient.giveUp]

/-- A run of the loop that ends within its fuel ends the same way on any larger
fuel: the outcome is that of the loop itself. -/
theorem doLoop_more_fuel (g : GenericClient) (req : http.Request) (bs : List Duration) :
    ∀ (fuel : Nat) (b : breaker.Breaker) (s : State),
      (g.doLoop req bs fuel b s).exit ≠ Exit.outOfFuel →
        ∀ k, g.doLoop req bs (fuel + k) b s = g.doLoop req bs fuel b s := by
  intro fuel
  induction fuel with
  | zero => intro b s h; exact absurd rfl h
  | succ fuel ih =>
    intro b s h k
    have hk : fuel + 1 + k = (fuel + k) + 1 := by omega
    rw [hk]
    by_cases hO : (b.observe s.now).state = breaker.BreakerState.Open
    · rw [doLoop_reject g req bs fuel b s hO, doLoop_reject g req bs (fuel + k) b s hO]
    · cases he : (g.client.Do s.sent req).err with
      | none =>
        rw [doLoop_success g req bs fuel b s hO he,
          doLoop_success g req bs (fuel + k) b s hO he]
      | some e =>
        rw [doLoop_failure g req bs fuel b s e hO he] at h ⊢
        rw [doLoop_failure g req bs (fuel + k) b s e hO he]
        split_ifs at h ⊢ with h1 h2
        · cases hg : bs[s.retries]? with
          | none => rfl
          | some d =>
            rw [hg] at h
            exact ih _ _ h k
        · rfl
        · rfl

/-- The fuel `Do` hands to its loop is never used up: every call of `Do` ends with a
`return` or with a panic. -/
theorem Do_never_outOfFuel (g : GenericClient) (req : http.Request) (now : Int) :
    (g.Do req now).exit ≠ Exit.outOfFuel :=
  doLoop_never_outOfFuel g req _ _ _ _ (by omega) (by simp [GenericClient.start])

/-- C6: every call of `Do` that returns has made one write to the status registry: the
status writes of its trace are the single write, for the name of the client, of
whether the returned error is nil; that write is the last event of the trace; the
registry differs from the one the call started with by that write alone; and
`GetStatus` right after the call is true exactly when the returned error is nil. -/
theorem C6_one_status_write (g : GenericClient) (req : http.Request) (now : Int)
    (resp : Option http.Response) (err : Option Err)
    (h : (g.Do req now).exit = Exit.returned resp err) :
    statusWrites (g.Do req now).final.trace = [(g.name, err.isNone)]
      ∧ (g.Do req now).final.trace.getLast? = some (Event.setStatus g.name err.isNone)
      ∧ (g.Do req now).final.status = g.status.Set g.name err.isNone
      ∧ (g.GetStatus (g.Do req now).final = true ↔ err = none) := by
  obtain ⟨-, hst, t, ht, hw⟩ := doLoop_returned g req _ _ _ _ resp err h
  have ht2 : (g.Do req now).final.trace = t ++ [Event.setStatus g.name err.isNone] := by
    simpa [GenericClient.start] using ht
  refine ⟨?_, ?_, hst, ?_⟩
  · rw [ht2, statusWrites_append, hw]; rfl
  · rw [ht2]; simp
  · have hs : (g.Do req now).final.status = g.status.Set g.name err.isNone := hst
    simp [GenericClient.GetStatus, hs, Status.Get, Status.Set]

/-- C6 at a call that fails once and gives up. -/
theorem C6_one_status_write_witness :
    statusWrites
        ((mkClient (failingClient 5) NewNoRetryPolicy DefaultBreakerConfig).Do
          getRequest 0).final.trace
        = [("fakeService", false)]
      ∧ ((mkClient (failingClient 5) NewNoRetryPolicy DefaultBreakerConfig).Do
          getRequest 0).final.trace.getLast?
        = some (Event.setStatus "fakeService" false) :=
  have h := C6_one_status_write (mkClient (failingClient 5) NewNoRetryPolicy DefaultBreakerConfig)
    getRequest 0 none (some Err.ErrBreakerOpen) (by decide)
  ⟨h.1, h.2.1⟩

/-- C7: for every client, request, clock reading and transport, the error `Do`
returns is nil or the sentinel `ErrBreakerOpen`; the error of a failed send is never
returned. -/
theorem C7_error_is_nil_or_sentinel (g : GenericClient) (req : http.Request) (now : Int)
    (resp : Option http.Response) (err : Option Err)
    (h : (g.Do req now).exit = Exit.returned resp err) :
    (err = none ∨ err = some Err.ErrBreakerOpen) ∧ ∀ e, err ≠ some (Err.transport e) := by
  have h1 := (doLoop_returned g req _ _ _ _ resp err h).1
  refine ⟨h1, fun e he => ?_⟩
  rcases h1 with h1 | h1 <;> rw [h1] at he <;> simp at he

/-- C7 at a call whose three sends all fail and open the breaker. -/
theorem C7_error_is_nil_or_sentinel_witness :
    ((some Err.ErrBreakerOpen : Option Err) = none
        ∨ (some Err.ErrBreakerOpen : Option Err) = some Err.ErrBreakerOpen)
      ∧ ∀ e, (some Err.ErrBreakerOpen : Option Err) ≠ some (Err.transport e) :=
  C7_error_is_nil_or_sentinel
    (mkClient (failingClient 5) (NewConstantRetryPolicy (100 * Millisecond) 3 (fun _ => true))
      DefaultBreakerConfig) getRequest 0 none (some Err.ErrBreakerOpen) (by decide)

/-! ## A transport that fails on every send -/

theorem observe_closed (b : breaker.Breaker) (now : Int)
    (h : b.state = breaker.BreakerState.Closed) : b.observe now = b := by
  simp [breaker.Breaker.observe, h]

theorem observe_open_early (b : breaker.Breaker) (now : Int)
    (h : now < b.openedAt + b.timeout) : b.observe now = b := by
  simp [breaker.Breaker.observe, not_le.2 h]

/-- A failure seen by a Closed breaker: the count it is added to is zero when the
failures counted so far have expired. -/
theorem failure_closed (b : breaker.Breaker) (now : Int)
    (h : b.state = breaker.BreakerState.Closed) :
    b.failure now
      = if (if 0 < b.errors ∧ b.lastError + b.timeout < now then 0 else b.errors) + 1
            = b.errorThreshold then
          { b.changeState breaker.BreakerState.Open with openedAt := now }
        else
          { b with
            errors := (if 0 < b.errors ∧ b.lastError + b.timeout < now then 0 else b.errors) + 1
            lastError := now } := by
  unfold breaker.Breaker.failure
  by_cases hx : 0 < b.errors ∧ b.lastError + b.timeout < now
  · rw [if_pos hx, if_pos hx]
    simp only [h]
    split_ifs <;> rfl
  · rw [if_neg hx, if_neg hx]
    simp only [h]

theorem rounds_append_tail (r : Nat) (d : Duration) (ds : List Duration) (t u : List Event) :
    t ++ [Event.send, Event.consult, Event.index r, Event.sleep d] ++ rounds (r + 1) ds ++ u
      = t ++ rounds r (d :: ds) ++ u := by
  simp [rounds]

/-- A breaker that stays Closed through the failures to come, as an invariant `I`
(of the number of backoffs left, the breaker, the clock and the send count) that
every failed round keeps: the loop sends, consults the predicate, indexes and sleeps
once for each backoff that is left, sends once more and panics on the index
`len(backoffs)`, which the guard `retries <= len(backoffs)` lets through. -/
theorem doLoop_breaker_never_opens (g : GenericClient) (req : http.Request)
    (bs : List Duration) (hfail : ∀ k, (g.client.Do k req).err ≠ none)
    (hretry : g.retryPolicy.Retry req = true)
    (I : Nat → breaker.Breaker → Int → Nat → Prop)
    (hI : ∀ n b now sent, I n b now sent → b.state = breaker.BreakerState.Closed)
    (hstep : ∀ n b now sent d, d ∈ bs → I (n + 1) b now sent →
      I n (b.failure (now + (g.client.Do sent req).elapsed))
        (now + (g.client.Do sent req).elapsed + max d 0) (sent + 1)) :
    ∀ (rest : List Duration) (fuel : Nat) (b : breaker.Breaker) (s : State),
      bs.drop s.retries = rest → s.retries ≤ bs.length →
      I rest.length b s.now s.sent →
      rest.length + 1 ≤ fuel →
        (g.doLoop req bs fuel b s).exit = Exit.panicked
          ∧ (g.doLoop req bs fuel b s).final.trace
            = s.trace ++ rounds s.retries rest
                ++ [Event.send, Event.consult, Event.index bs.length]
          ∧ (g.doLoop req bs fuel b s).final.status = s.status := by
  intro rest
  induction rest with
  | nil =>
    intro fuel b s hdrop hle hinv hfuel
    have hc := hI _ _ _ _ hinv
    obtain ⟨f, rfl⟩ : ∃ f, fuel = f + 1 := ⟨fuel - 1, by simp at hfuel; omega⟩
    obtain ⟨e, he⟩ := exists_of_ne_none _ (hfail s.sent)
    have hlen : s.retries = bs.length := by
      have := List.drop_eq_nil_iff.1 hdrop
      omega
    rw [doLoop_failure g req bs f b s e (by rw [observe_closed b _ hc, hc]; decide) he,
      if_pos hle, if_pos hretry, List.getElem?_eq_none (by omega)]
    simp [rounds, hlen, GenericClient.afterSend]
  | cons d rest ih =>
    intro fuel b s hdrop hle hinv hfuel
    have hc := hI _ _ _ _ hinv
    obtain ⟨f, rfl⟩ : ∃ f, fuel = f + 1 := ⟨fuel - 1, by simp at hfuel; omega⟩
    obtain ⟨e, he⟩ := exists_of_ne_none _ (hfail s.sent)
    have hlt : s.retries < bs.length := by
      by_contra hn
      rw [List.drop_eq_nil_iff.2 (by omega)] at hdrop
      exact absurd hdrop (by simp)
    have hget : bs[s.retries]? = some d := by
      rw [← List.head?_drop, hdrop]; rfl
    have hmem : d ∈ bs := List.getElem?_mem hget
    have hdrop2 : bs.drop (s.retries + 1) = rest := by
      rw [← List.drop_drop, hdrop]; rfl
    simp only [List.length_cons] at hinv hfuel
    rw [doLoop_failure g req bs f b s e (by rw [observe_closed b _ hc, hc]; decide) he,
      if_pos hle, if_pos hretry, hget, observe_closed b _ hc]
    simp only
    have := ih f (b.failure (g.afterSend req s).now)
      { g.afterSend req s with
        retries := s.retries + 1
        now := (g.afterSend req s).now + max d 0
        trace := s.trace ++ [Event.send, Event.consult, Event.index s.retries, Event.sleep d] }
      hdrop2 hlt (hstep _ b s.now s.sent d hmem hinv) (by omega)
    obtain ⟨h1, h2, h3⟩ := this
    refine ⟨h1, ?_, h3⟩
    rw [h2]
    exact rounds_append_tail s.retries d rest s.trace _

theorem sends_append (t u : List Event) : sends (t ++ u) = sends t + sends u := by
  simp [sends]

theorem sleeps_append (t u : List Event) : sleeps (t ++ u) = sleeps t ++ sleeps u := by
  induction t with
  | nil => rfl
  | cons e t ih => cases e <;> simp [sleeps, ih]

theorem sends_rounds (r : Nat) (ds : List Duration) : sends (rounds r ds) = ds.length := by
  induction ds generalizing r with
  | nil => rfl
  | cons d ds ih =>
    have h := ih (r + 1)
    simp only [sends] at h
    simp [rounds, sends, h]

theorem sleeps_rounds (r : Nat) (ds : List Duration) : sleeps (rounds r ds) = ds := by
  induction ds generalizing r with
  | nil => rfl
  | cons d ds ih => simp [rounds, sleeps, ih]

theorem statusWrites_rounds (r : Nat) (ds : List Duration) :
    statusWrites (rounds r ds) = [] := by
  induction ds generalizing r with
  | nil => rfl
  | cons d ds ih => simp [rounds, statusWrites, ih]

theorem index_mem_rounds (r i : Nat) (ds : List Duration) :
    Event.index i ∈ rounds r ds → r ≤ i ∧ i < r + ds.length := by
  induction ds generalizing r with
  | nil => intro h; simp [rounds] at h
  | cons d ds ih =>
    intro h
    simp only [rounds, List.mem_append, List.mem_cons, Event.index.injEq,
      List.mem_singleton, List.length_cons, reduceCtorEq, false_or, or_false,
      List.not_mem_nil] at h
    simp only [List.length_cons]
    rcases h with h | h
    · omega
    · have := ih (r + 1) h
      omega

theorem failingClient_fails (ns k : Nat) (req : http.Request) :
    ((failingClient ns).Do k req).err ≠ none := by
  simp [failingClient]

/-- The panic of `Do`, from an invariant that keeps the breaker Closed. -/
theorem Do_breaker_never_opens (g : GenericClient) (req : http.Request) (now : Int)
    (hfail : ∀ k, (g.client.Do k req).err ≠ none)
    (hretry : g.retryPolicy.Retry req = true)
    (I : Nat → breaker.Breaker → Int → Nat → Prop)
    (hI : ∀ n b now sent, I n b now sent → b.state = breaker.BreakerState.Closed)
    (hstep : ∀ n b now sent d, d ∈ g.retryPolicy.Backoffs → I (n + 1) b now sent →
      I n (b.failure (now + (g.client.Do sent req).elapsed))
        (now + (g.client.Do sent req).elapsed + max d 0) (sent + 1))
    (hstart : I g.retryPolicy.Backoffs.length g.circuitBreaker.CB now 0) :
    (g.Do req now).exit = Exit.panicked
      ∧ (g.Do req now).final.trace
        = rounds 0 g.retryPolicy.Backoffs
            ++ [Event.send, Event.consult, Event.index g.retryPolicy.Backoffs.length]
      ∧ sleeps (g.Do req now).final.trace = g.retryPolicy.Backoffs
      ∧ statusWrites (g.Do req now).final.trace = [] := by
  have h := doLoop_breaker_never_opens g req g.retryPolicy.Backoffs hfail hretry I hI hstep
    g.retryPolicy.Backoffs (g.retryPolicy.Backoffs.length + 2) g.circuitBreaker.CB
    (g.start now) rfl (Nat.zero_le _) hstart (by omega)
  obtain ⟨h1, h2, -⟩ := h
  have h3 : (g.Do req now).final.trace
      = rounds 0 g.retryPolicy.Backoffs
          ++ [Event.send, Event.consult, Event.index g.retryPolicy.Backoffs.length] := by
    simpa [GenericClient.start] using h2
  refine ⟨h1, h3, ?_, ?_⟩
  · rw [h3, sleeps_append, sleeps_rounds]; simp [sleeps]
  · rw [h3, statusWrites_append, statusWrites_rounds]; rfl

/-- C1, as the code has it: for every retry policy with N backoffs whose predicate
approves the request, a transport that fails on every send and a Closed breaker that
N+1 more failures do not open, `Do` does not return: after N rounds of send and
sleep it sends once more and, `retries` being N, takes the guard
`retries <= len(backoffs)` and panics on `backoffs[N]`, with no status written. -/
theorem C1_Do_panics_when_breaker_stays_closed (g : GenericClient) (req : http.Request)
    (now : Int)
    (hretry : g.retryPolicy.Retry req = true)
    (hfail : ∀ k, (g.client.Do k req).err ≠ none)
    (hclosed : g.circuitBreaker.CB.state = breaker.BreakerState.Closed)
    (hroom : g.circuitBreaker.CB.errors + g.retryPolicy.Backoffs.length + 1
      < g.circuitBreaker.CB.errorThreshold) :
    (g.Do req now).exit = Exit.panicked
      ∧ (g.Do req now).final.trace
        = rounds 0 g.retryPolicy.Backoffs
            ++ [Event.send, Event.consult, Event.index g.retryPolicy.Backoffs.length]
      ∧ sleeps (g.Do req now).final.trace = g.retryPolicy.Backoffs
      ∧ statusWrites (g.Do req now).final.trace = [] := by
  apply Do_breaker_never_opens g req now hfail hretry
    (fun n b _ _ => b.state = breaker.BreakerState.Closed
      ∧ b.errorThreshold = g.circuitBreaker.CB.errorThreshold
      ∧ b.errors + n + 1 < g.circuitBreaker.CB.errorThreshold)
  · intro n b _ _ h
    exact h.1
  · intro n b t sent d _ h
    obtain ⟨hc, ht, he⟩ := h
    push_cast at he
    rw [failure_closed b _ hc]
    split_ifs with h1 h2 h3
    · omega
    · exact ⟨hc, ht, by show (0 : Int) + 1 + n + 1 < _; omega⟩
    · omega
    · exact ⟨hc, ht, by show b.errors + 1 + n + 1 < _; omega⟩
  · exact ⟨hclosed, rfl, hroom⟩

/-- C1 at Single-Retry(100ms) with the default breaker config (threshold 3): after one
retry the second failure leaves the breaker Closed and `backoffs[1]` panics. -/
theorem C1_single_retry_default_breaker_panics :
    ((mkClient (failingClient 5) (NewSingleRetryPolicy (100 * Millisecond) (fun _ => true))
        DefaultBreakerConfig).Do getRequest 0).exit = Exit.panicked
      ∧ ((mkClient (failingClient 5) (NewSingleRetryPolicy (100 * Millisecond) (fun _ => true))
        DefaultBreakerConfig).Do getRequest 0).final.trace
        = [Event.send, Event.consult, Event.index 0, Event.sleep (100 * Millisecond),
            Event.send, Event.consult, Event.index 1] :=
  have h := C1_Do_panics_when_breaker_stays_closed
    (mkClient (failingClient 5) (NewSingleRetryPolicy (100 * Millisecond) (fun _ => true))
      DefaultBreakerConfig) getRequest 0 rfl (fun k => failingClient_fails 5 k getRequest)
    (by decide) (by decide)
  ⟨h.1, h.2.1⟩

/-- A breaker fresh from `NewBreaker` with a threshold `N >= 1` and the 10s timeout. -/
theorem NewBreaker_ten_seconds (N : Nat) (successThreshold : Int) (hN : 1 ≤ N) :
    NewBreaker ⟨N, successThreshold, 10 * Second⟩
      = ⟨breaker.New N (if successThreshold = 0 then 1 else successThreshold)
          (10 * Second)⟩ := by
  have hN0 : (N : Int) ≠ 0 := by omega
  rw [NewBreaker_eq]
  simp only [hN0, if_false]
  rfl

/-- C2, as the code has it: for every N >= 2, with a Constant-Retry(100ms, N) policy
whose predicate approves the request, a breaker fresh from `NewBreaker` with
`ErrorThreshold` N and `Timeout` 10s, and a transport whose every send fails after
more than 9.9s, `Do` sleeps N times for 100ms and does not return: each failure
comes more than 10s after the one before it, so the count of the breaker starts
afresh and never reaches N, the breaker stays Closed, and after the N-th sleep the
next failure takes the guard `retries <= len(backoffs)` and panics on `backoffs[N]`,
with no status written. -/
theorem C2_slow_failures_panic (g : GenericClient) (req : http.Request)
    (now : Int) (N : Nat) (successThreshold : Int) (retry : http.Request → Bool)
    (hN : 2 ≤ N) (hretry : retry req = true)
    (hfail : ∀ k, (g.client.Do k req).err ≠ none)
    (hslow : ∀ k, (10 * Second - 100 * Millisecond : Int) < (g.client.Do k req).elapsed) :
    ((g.equip (NewConstantRetryPolicy (100 * Millisecond) N retry)
        ⟨N, successThreshold, 10 * Second⟩).Do req now).exit = Exit.panicked
      ∧ ((g.equip (NewConstantRetryPolicy (100 * Millisecond) N retry)
          ⟨N, successThreshold, 10 * Second⟩).Do req now).final.trace
        = rounds 0 (List.replicate N (100 * Millisecond))
            ++ [Event.send, Event.consult, Event.index N]
      ∧ sleeps ((g.equip (NewConstantRetryPolicy (100 * Millisecond) N retry)
          ⟨N, successThreshold, 10 * Second⟩).Do req now).final.trace
        = List.replicate N (100 * Millisecond)
      ∧ statusWrites ((g.equip (NewConstantRetryPolicy (100 * Millisecond) N retry)
          ⟨N, successThreshold, 10 * Second⟩).Do req now).final.trace = [] := by
  have hb := NewBreaker_ten_seconds N successThreshold (by omega)
  have hlen : (g.equip (NewConstantRetryPolicy (100 * Millisecond) N retry)
      ⟨N, successThreshold, 10 * Second⟩).retryPolicy.Backoffs.length = N := by
    simp [GenericClient.equip, GenericClient.SetRetryPolicy, GenericClient.SetCircuitBreaker,
      NewConstantRetryPolicy, RetryPolicy.Backoffs]
  have hbs : (g.equip (NewConstantRetryPolicy (100 * Millisecond) N retry)
      ⟨N, successThreshold, 10 * Second⟩).retryPolicy.Backoffs
        = List.replicate N (100 * Millisecond) := rfl
  have h := Do_breaker_never_opens
    (g.equip (NewConstantRetryPolicy (100 * Millisecond) N retry)
      ⟨N, successThreshold, 10 * Second⟩) req now hfail hretry
    (fun _ b t _ => b.state = breaker.BreakerState.Closed
      ∧ b.errorThreshold = N
      ∧ b.timeout = 10000000000
      ∧ (b.errors = 0 ∨ (b.errors = 1 ∧ b.lastError + 100000000 ≤ t)))
    (fun _ _ _ _ h => h.1)
    (by
      intro n b t sent d hd h
      obtain ⟨hc, ht, hto, he⟩ := h
      have hd2 : d = 100000000 := List.eq_of_mem_replicate hd
      have hs : (9900000000 : Int) < ((g.client.Do sent req).elapsed : Int) := by
        have := hslow sent
        norm_num [Second, Millisecond] at this
        exact_mod_cast this
      have hgc : (g.equip (NewConstantRetryPolicy (100 * Millisecond) N retry)
          ⟨N, successThreshold, 10 * Second⟩).client = g.client := rfl
      rw [hgc, failure_closed b _ hc, hd2]
      have he0 : (if 0 < b.errors
            ∧ b.lastError + b.timeout < t + ((g.client.Do sent req).elapsed : Int)
          then 0 else b.errors) = 0 := by
        rcases he with he | ⟨he, hl⟩
        · rw [he]; simp
        · rw [if_pos ⟨by omega, by rw [hto]; omega⟩]
      rw [he0]
      have hne : ¬ ((0 : Int) + 1 = b.errorThreshold) := by omega
      rw [if_neg hne]
      refine ⟨hc, ht, hto, Or.inr ⟨rfl, ?_⟩⟩
      show t + ((g.client.Do sent req).elapsed : Int) + 100000000
        ≤ t + ((g.client.Do sent req).elapsed : Int) + max 100000000 0
      simp)
    (by
      have hcb : (g.equip (NewConstantRetryPolicy (100 * Millisecond) N retry)
          ⟨N, successThreshold, 10 * Second⟩).circuitBreaker.CB
            = breaker.New N (if successThreshold = 0 then 1 else successThreshold)
                (10 * Second) := by
        show (NewBreaker _).CB = _
        rw [hb]
      simp only [hcb]
      simp [breaker.New, Second])
  rw [hlen, hbs] at h
  exact h

/-- C2 at N = 2 with sends that fail after 10s: two sleeps, a third send, and the
panic on `backoffs[2]` with the breaker still Closed. -/
theorem C2_two_retries_slow_failures_panic :
    ((((mkClient (failingClient 10000000000) NewNoRetryPolicy DefaultBreakerConfig).equip
        (NewConstantRetryPolicy (100 * Millisecond) 2 (fun _ => true))
          ⟨(2 : Nat), 1, 10 * Second⟩).Do getRequest 0).exit = Exit.panicked)
      ∧ (((mkClient (failingClient 10000000000) NewNoRetryPolicy DefaultBreakerConfig).equip
        (NewConstantRetryPolicy (100 * Millisecond) 2 (fun _ => true))
          ⟨(2 : Nat), 1, 10 * Second⟩).Do getRequest 0).final.trace
        = [Event.send, Event.consult, Event.index 0, Event.sleep (100 * Millisecond),
            Event.send, Event.consult, Event.index 1, Event.sleep (100 * Millisecond),
            Event.send, Event.consult, Event.index 2]
      ∧ statusWrites
          (((mkClient (failingClient 10000000000) NewNoRetryPolicy DefaultBreakerConfig).equip
            (NewConstantRetryPolicy (100 * Millisecond) 2 (fun _ => true))
              ⟨(2 : Nat), 1, 10 * Second⟩).Do getRequest 0).final.trace = [] :=
  have h := C2_slow_failures_panic
    (mkClient (failingClient 10000000000) NewNoRetryPolicy DefaultBreakerConfig) getRequest 0 2
    1 (fun _ => true) (by decide) rfl (fun k => failingClient_fails _ k getRequest)
    (fun _ => (by decide :
      (10 * Second - 100 * Millisecond : Int) < ((10000000000 : Nat) : Int)))
  ⟨h.1, h.2.1, h.2.2.2⟩

/-- A failure seen by a Closed breaker whose count is zero or whose last counted
failure is no older than the timeout: the count does not start afresh. -/
theorem failure_closed_recent (b : breaker.Breaker) (now : Int)
    (hc : b.state = breaker.BreakerState.Closed)
    (h : b.errors = 0 ∨ now ≤ b.lastError + b.timeout) :
    b.failure now
      = if b.errors + 1 = b.errorThreshold then
          { b.changeState breaker.BreakerState.Open with openedAt := now }
        else { b with errors := b.errors + 1, lastError := now } := by
  have he : (if 0 < b.errors ∧ b.lastError + b.timeout < now then 0 else b.errors)
      = b.errors := by
    rcases h with h | h
    · rw [h]; simp
    · rw [if_neg (fun hx => absurd hx.2 (not_lt.2 h))]
  rw [failure_closed b now hc, he]

/-- A Closed breaker whose threshold the failures of the backoffs that are left
reach exactly, none of them coming later than the timeout after the one before it,
and each backoff sleeping for less than the timeout: the loop sends, consults the
predicate, indexes and sleeps once for each backoff, the last of these failures
opens the breaker, and the next guarded run is rejected, so that the loop returns
the sentinel with the status down. -/
theorem doLoop_breaker_opens (g : GenericClient) (req : http.Request)
    (bs : List Duration) (hfail : ∀ k, (g.client.Do k req).err ≠ none)
    (hretry : g.retryPolicy.Retry req = true) :
    ∀ (rest : List Duration) (fuel : Nat) (b : breaker.Breaker) (s : State),
      rest ≠ [] → bs.drop s.retries = rest →
      b.state = breaker.BreakerState.Closed →
      b.errors + rest.length = b.errorThreshold →
      (b.errors = 0
        ∨ s.now + ((g.client.Do s.sent req).elapsed : Int) ≤ b.lastError + b.timeout) →
      (∀ j d, rest[j]? = some d → j + 1 < rest.length →
        max d 0 + ((g.client.Do (s.sent + j + 1) req).elapsed : Int) ≤ b.timeout) →
      (∀ d ∈ rest, max d 0 < b.timeout) →
      rest.length + 1 ≤ fuel →
        (∃ resp, (g.doLoop req bs fuel b s).exit
            = Exit.returned resp (some Err.ErrBreakerOpen))
          ∧ (g.doLoop req bs fuel b s).final.trace
            = s.trace ++ rounds s.retries rest
                ++ [Event.reject, Event.setStatus g.name false]
          ∧ (g.doLoop req bs fuel b s).final.status = s.status.Set g.name false
          ∧ (g.doLoop req bs fuel b s).final.sent = s.sent + rest.length
          ∧ (g.doLoop req bs fuel b s).cb.state = breaker.BreakerState.Open := by
  intro rest
  induction rest with
  | nil => intro fuel b s h; exact absurd rfl h
  | cons d rest ih =>
    intro fuel b s _ hdrop hc herr hfirst hpace hto hfuel
    obtain ⟨f, rfl⟩ : ∃ f, fuel = f + 1 := ⟨fuel - 1, by simp at hfuel; omega⟩
    obtain ⟨e, he⟩ := exists_of_ne_none _ (hfail s.sent)
    have hlt : s.retries < bs.length := by
      by_contra hn
      rw [List.drop_eq_nil_iff.2 (by omega)] at hdrop
      exact absurd hdrop (by simp)
    have hget : bs[s.retries]? = some d := by
      rw [← List.head?_drop, hdrop]; rfl
    have hdrop2 : bs.drop (s.retries + 1) = rest := by
      rw [← List.drop_drop, hdrop]; rfl
    have hnow : (g.afterSend req s).now = s.now + ((g.client.Do s.sent req).elapsed : Int) :=
      rfl
    simp only [List.length_cons, Nat.cast_add, Nat.cast_one] at herr hfuel
    rw [doLoop_failure g req bs f b s e (by rw [observe_closed b _ hc, hc]; decide) he,
      if_pos (le_of_lt hlt), if_pos hretry, hget, observe_closed b _ hc,
      failure_closed_recent b _ hc (by rw [hnow]; exact hfirst)]
    simp only
    cases rest with
    | nil =>
      obtain ⟨f, rfl⟩ : ∃ f2, f = f2 + 1 := ⟨f - 1, by simp at hfuel; omega⟩
      have hd : max d 0 < b.timeout := hto d (by simp)
      rw [if_pos (by simpa using herr)]
      rw [doLoop_reject g req bs f _ _ (by
        rw [observe_open_early _ _ (by
          show (g.afterSend req s).now + max d 0 < (g.afterSend req s).now + b.timeout
          exact Int.add_lt_add_left hd _)]
        rfl)]
      refine ⟨⟨_, rfl⟩, ?_, rfl, rfl, ?_⟩
      · simp [GenericClient.SetStatus, rounds]
      · rw [observe_open_early _ _ (by
          show (g.afterSend req s).now + max d 0 < (g.afterSend req s).now + b.timeout
          exact Int.add_lt_add_left hd _)]
        rfl
    | cons d2 rest =>
      simp only [List.length_cons, Nat.cast_add, Nat.cast_one] at herr hfuel
      rw [if_neg (by omega)]
      have hgap : max d 0 + ((g.client.Do (s.sent + 1) req).elapsed : Int) ≤ b.timeout :=
        hpace 0 d rfl (by simp)
      have := ih f { b with errors := b.errors + 1, lastError := (g.afterSend req s).now }
        { g.afterSend req s with
          retries := s.retries + 1
          now := (g.afterSend req s).now + max d 0
          trace := s.trace
            ++ [Event.send, Event.consult, Event.index s.retries, Event.sleep d] }
        (by simp) hdrop2 hc
        (by
          show b.errors + 1 + ((d2 :: rest).length : Int) = b.errorThreshold
          simp only [List.length_cons, Nat.cast_add, Nat.cast_one]
          omega)
        (Or.inr (by
          show (g.afterSend req s).now + max d 0
              + ((g.client.Do (s.sent + 1) req).elapsed : Int)
            ≤ (g.afterSend req s).now + b.timeout
          have := Int.add_le_add_left hgap (g.afterSend req s).now
          rw [← Int.add_assoc] at this
          exact this))
        (by
          intro j x hx hj
          have := hpace (j + 1) x (by simpa using hx)
            (by simp only [List.length_cons] at hj ⊢; omega)
          have hidx : s.sent + 1 + j + 1 = s.sent + (j + 1) + 1 := by omega
          show max x 0 + ((g.client.Do (s.sent + 1 + j + 1) req).elapsed : Int) ≤ b.timeout
          rw [hidx]
          exact this)
        (fun x hx => hto x (List.mem_cons_of_mem _ hx))
        (by simp only [List.length_cons]; omega)
      obtain ⟨h1, h2, h3, h4, h5⟩ := this
      refine ⟨h1, ?_, h3, ?_, h5⟩
      · rw [h2]
        exact rounds_append_tail s.retries d (d2 :: rest) s.trace _
      · rw [h4]
        simp only [GenericClient.afterSend, List.length_cons]
        omega

/-- The run of `Do` against a transport that always fails, with an approving
predicate and a fresh breaker whose threshold is the number of backoffs, when no
failure comes later than the timeout after the one before it. -/
theorem Do_breaker_opens (g : GenericClient) (req : http.Request) (now : Int)
    (hN : 1 ≤ g.retryPolicy.Backoffs.length)
    (hclosed : g.circuitBreaker.CB.state = breaker.BreakerState.Closed)
    (herrors : g.circuitBreaker.CB.errors = 0)
    (hthreshold : g.circuitBreaker.CB.errorThreshold = g.retryPolicy.Backoffs.length)
    (hpos : 0 < g.circuitBreaker.CB.timeout)
    (hshort : ∀ d ∈ g.retryPolicy.Backoffs, d < g.circuitBreaker.CB.timeout)
    (hpace : ∀ k d, g.retryPolicy.Backoffs[k]? = some d →
      k + 1 < g.retryPolicy.Backoffs.length →
        max d 0 + ((g.client.Do (k + 1) req).elapsed : Int) ≤ g.circuitBreaker.CB.timeout)
    (hretry : g.retryPolicy.Retry req = true)
    (hfail : ∀ k, (g.client.Do k req).err ≠ none) :
    (∃ resp, (g.Do req now).exit = Exit.returned resp (some Err.ErrBreakerOpen))
      ∧ (g.Do req now).final.trace
        = rounds 0 g.retryPolicy.Backoffs ++ [Event.reject, Event.setStatus g.name false]
      ∧ (g.Do req now).final.status = g.status.Set g.name false
      ∧ (g.Do req now).final.sent = g.retryPolicy.Backoffs.length
      ∧ (g.Do req now).cb.state = breaker.BreakerState.Open := by
  have h := doLoop_breaker_opens g req g.retryPolicy.Backoffs hfail hretry
    g.retryPolicy.Backoffs (g.retryPolicy.Backoffs.length + 2) g.circuitBreaker.CB
    (g.start now) (by intro h0; rw [h0] at hN; exact absurd hN (by decide)) rfl hclosed
    (by rw [herrors, hthreshold]; simp) (Or.inl herrors)
    (by
      intro j d hd hj
      have := hpace j d hd hj
      show max d 0 + ((g.client.Do (0 + j + 1) req).elapsed : Int) ≤ _
      rw [Nat.zero_add]
      exact this)
    (fun d hd => max_lt (hshort d hd) hpos) (by omega)
  obtain ⟨h1, h2, h3, h4, h5⟩ := h
  refine ⟨h1, ?_, h3, ?_, h5⟩
  · simpa [GenericClient.start] using h2
  · simpa [GenericClient.start] using h4

/-- The claim C10 as written fails at two backoffs of 50ms, a fresh breaker of
threshold 2 and timeout 100ms, an approving predicate and a transport whose every
send fails after 80ms. Every condition of the claim holds, but the second failure
comes 130ms after the first, so the count of the breaker starts afresh and the
breaker stays Closed: `Do` sends three times, evaluates `backoffs[2]` and panics. -/
theorem C10_slow_failures_reach_index_N :
    (1 ≤ slowFailingClient.retryPolicy.Backoffs.length
        ∧ slowFailingClient.circuitBreaker.CB.state = breaker.BreakerState.Closed
        ∧ slowFailingClient.circuitBreaker.CB.errors = 0
        ∧ slowFailingClient.circuitBreaker.CB.errorThreshold
          = slowFailingClient.retryPolicy.Backoffs.length
        ∧ (∀ d ∈ slowFailingClient.retryPolicy.Backoffs,
            d < slowFailingClient.circuitBreaker.CB.timeout)
        ∧ slowFailingClient.retryPolicy.Retry getRequest = true
        ∧ ∀ k, (slowFailingClient.client.Do k getRequest).err ≠ none)
      ∧ (slowFailingClient.Do getRequest 0).exit = Exit.panicked
      ∧ Event.index 2 ∈ (slowFailingClient.Do getRequest 0).final.trace
      ∧ sends (slowFailingClient.Do getRequest 0).final.trace = 3
      ∧ (slowFailingClient.Do getRequest 0).cb.state = breaker.BreakerState.Closed :=
  ⟨⟨by decide, by decide, by decide, by decide, by decide, by decide,
      fun k => failingClient_fails _ k getRequest⟩,
    by decide, by decide, by decide, by decide⟩

/-- Why the timeout has to be positive: a breaker whose timeout is not positive is
Half-Open as soon as it has opened, so the run after the failure that opened it is
admitted. With the one backoff of -2ns, shorter than the timeout of -1ns, `Do`
sends twice and panics on `backoffs[1]`. -/
theorem Do_negative_timeout_panics :
    ((mkClient (failingClient 5) ⟨[-2], fun _ => true⟩ ⟨1, 1, -1⟩).Do getRequest 0).exit
        = Exit.panicked
      ∧ ((mkClient (failingClient 5) ⟨[-2], fun _ => true⟩ ⟨1, 1, -1⟩).Do
          getRequest 0).final.trace
        = [Event.send, Event.consult, Event.index 0, Event.sleep (-2),
            Event.send, Event.consult, Event.index 1] := by
  decide

/-- C10 (amended): if the breaker is fresh (Closed, nothing counted), its error
threshold is the number N >= 1 of backoffs, its timeout is positive, every backoff
delay is shorter than the timeout, no failed send ends later than the timeout after
the one before it (the time the backoff sleeps plus the time the next send takes is
at most the timeout), the predicate approves the request and the transport fails on
every send, then `Do` returns the sentinel and does not panic: its trace is N rounds
of send, predicate, index and sleep, followed by a rejection and the status write,
so `backoffs[retries]` is only evaluated with `retries < N`, the transport is sent N
times, the breaker ends Open, and the run after the N-th failure is rejected before
the guard is reached with `retries = N`. -/
theorem C10_index_stays_in_range (g : GenericClient) (req : http.Request) (now : Int)
    (hN : 1 ≤ g.retryPolicy.Backoffs.length)
    (hclosed : g.circuitBreaker.CB.state = breaker.BreakerState.Closed)
    (herrors : g.circuitBreaker.CB.errors = 0)
    (hthreshold : g.circuitBreaker.CB.errorThreshold = g.retryPolicy.Backoffs.length)
    (hpos : 0 < g.circuitBreaker.CB.timeout)
    (hshort : ∀ d ∈ g.retryPolicy.Backoffs, d < g.circuitBreaker.CB.timeout)
    (hpace : ∀ k d, g.retryPolicy.Backoffs[k]? = some d →
      k + 1 < g.retryPolicy.Backoffs.length →
        max d 0 + ((g.client.Do (k + 1) req).elapsed : Int) ≤ g.circuitBreaker.CB.timeout)
    (hretry : g.retryPolicy.Retry req = true)
    (hfail : ∀ k, (g.client.Do k req).err ≠ none) :
    (∃ resp, (g.Do req now).exit = Exit.returned resp (some Err.ErrBreakerOpen))
      ∧ (g.Do req now).final.trace
        = rounds 0 g.retryPolicy.Backoffs ++ [Event.reject, Event.setStatus g.name false]
      ∧ (∀ i, Event.index i ∈ (g.Do req now).final.trace → i < g.retryPolicy.Backoffs.length)
      ∧ sends (g.Do req now).final.trace = g.retryPolicy.Backoffs.length
      ∧ (g.Do req now).final.sent = g.retryPolicy.Backoffs.length
      ∧ (g.Do req now).cb.state = breaker.BreakerState.Open := by
  obtain ⟨h1, h2, -, h4, h5⟩ :=
    Do_breaker_opens g req now hN hclosed herrors hthreshold hpos hshort hpace hretry hfail
  refine ⟨h1, h2, ?_, ?_, h4, h5⟩
  · intro i hi
    rw [h2] at hi
    simp only [List.mem_append, List.mem_cons, reduceCtorEq, List.not_mem_nil, or_false,
      false_or] at hi
    have := index_mem_rounds 0 i _ hi
    omega
  · rw [h2, sends_append, sends_rounds]
    simp [sends]

/-- C10 (amended) at Constant-Retry(100ms, 3) with the default breaker config
(threshold 3, timeout 10s) and sends that fail after 5ns. -/
theorem C10_index_stays_in_range_witness :
    (∃ resp, ((mkClient (failingClient 5)
          (NewConstantRetryPolicy (100 * Millisecond) 3 (fun _ => true))
          DefaultBreakerConfig).Do getRequest 0).exit
        = Exit.returned resp (some Err.ErrBreakerOpen))
      ∧ (∀ i, Event.index i ∈ ((mkClient (failingClient 5)
          (NewConstantRetryPolicy (100 * Millisecond) 3 (fun _ => true))
          DefaultBreakerConfig).Do getRequest 0).final.trace → i < 3)
      ∧ sends ((mkClient (failingClient 5)
          (NewConstantRetryPolicy (100 * Millisecond) 3 (fun _ => true))
          DefaultBreakerConfig).Do getRequest 0).final.trace = 3 :=
  have h := C10_index_stays_in_range
    (mkClient (failingClient 5) (NewConstantRetryPolicy (100 * Millisecond) 3 (fun _ => true))
      DefaultBreakerConfig) getRequest 0 (by decide) (by decide) (by decide) (by decide)
    (by decide) (by decide)
    (fun k d hd _ => by
      have hd2 : d = 100 * Millisecond := List.eq_of_mem_replicate (List.getElem?_mem hd)
      rw [hd2]
      show max (100 * Millisecond) 0 + ((5 : Nat) : Int) ≤ 10 * Second
      decide)
    rfl (fun k => failingClient_fails 5 k getRequest)
  ⟨h.1, h.2.2.1, h.2.2.2.1⟩

end httpclient
